import Mathlib

/-!
Verification of the `chandra_time` C++ time-conversion library
(`Chandra/XTime.h`, `Chandra/XTime.cc`, `Chandra/Time/axTime3.cc`).

The code is embedded shallowly: C `double` arithmetic is modelled by exact
rational arithmetic (`ℚ`), C `long`/`int` by `ℤ`, casts `(long) x` by
truncation toward zero (`ratTrunc`), and C integer division by `Int.tdiv`.
The process-global leap-second table is modelled by the compiled-in 26-entry
fallback table (`LEAPSMJD` / `LEAPSECS` in `XTime.cc`), which is the table in
effect when no external `tai-utc.dat` file is found; the file-refresh routine
`setleaps` is modelled separately over an abstract table state, taking the
already-parsed `fscanf` results as input.
-/

namespace ChandraTime

/-- C cast `(long) x` / `(int) x` on a `double`: truncation toward zero. -/
def ratTrunc (q : ℚ) : ℤ := if q < 0 then -⌊-q⌋ else ⌊q⌋

/-- `XTime::DAY2SEC` — seconds per day. -/
def DAY2SEC : ℚ := 86400

/-- `XTime::SEC2DAY` — inverse seconds per day. -/
def SEC2DAY : ℚ := 1 / 86400

/-- `XTime::MJD0` — JD minus MJD. -/
def MJD0 : ℚ := 2400000 + 1 / 2

/-- `XTime::MJD1972` — MJD at 1972.0. -/
def MJD1972 : ℤ := 41317

/-- `XTime::MJDREFint` — integer part of the default reference MJD (1998.0 TT). -/
def MJDREFint : ℤ := 50814

/-- `XTime::MJDREFfr` — fractional part of the default reference MJD. -/
def MJDREFfr : ℚ := 0

/-- `XTime::REFLEAPS` — leap seconds at the default reference epoch. -/
def REFLEAPS : ℚ := 31

/-- `XTime::TAI2TT` — TT minus TAI, 32.184 s. -/
def TAI2TT : ℚ := 32184 / 1000

/-- `XTime::NUMLEAPSECS` after the compiled-in fallback table is installed. -/
def NUMLEAPSECS : ℕ := 26

/-- `XTime::LEAPSMJD` — compiled-in leap-second boundary MJDs (1972–2012). -/
def LEAPSMJD : List ℤ :=
  [41317, 41499, 41683, 42048, 42413, 42778, 43144, 43509, 43874,
   44239, 44786, 45151, 45516, 46247, 47161, 47892, 48257, 48804,
   49169, 49534, 50083, 50630, 51179, 53736, 54832, 56109]

/-- `XTime::LEAPSECS` — cumulative leap seconds at the corresponding boundary. -/
def LEAPSECS : List ℚ :=
  [10, 11, 12, 13, 14, 15, 16, 17, 18, 19, 20, 21, 22, 23, 24, 25,
   26, 27, 28, 29, 30, 31, 32, 33, 34, 35]

/-- `LEAPSMJD[i]` (array read; out-of-range reads, which the C code never
performs on the fallback table, default to 0). -/
def Lm (i : ℕ) : ℤ := LEAPSMJD.getD i 0

/-- `LEAPSECS[i]`. -/
def Cs (i : ℕ) : ℚ := LEAPSECS.getD i 0

/-- `XTime::TimeSys`. -/
inductive TimeSys | MET | TT | UTC | TAI
deriving DecidableEq

/-- `XTime::TimeFormat`. -/
inductive TimeFormat | SECS | JD | MJD | DATE | CALDATE | FITS
deriving DecidableEq

/-- The private instance attributes of class `XTime` (the date-string buffer
`tdate` is not part of the numeric state). -/
structure XTimeState where
  MJDint : ℤ
  MJDfr : ℚ
  timeZero : ℚ
  MJDrefint : ℤ
  MJDreffr : ℚ
  leapflag : Bool
  myLeaps : ℚ
  refLeaps : ℚ
deriving DecidableEq

/-- The descending search loop shared by `setmyleaps` and the two `set`
branches: `while ( ( j < LEAPSMJD[i] ) && i ) i-- ;` starting at index `i`. -/
def leapIdx (j : ℤ) : ℕ → ℕ
  | 0 => 0
  | i + 1 => if j < Lm (i + 1) then leapIdx j i else i + 1

/-- The TAI MJD `x` computed at the top of `XTime::setmyleaps`. -/
def taiMJD (mjdi : ℤ) (mjdf : ℚ) : ℚ := (mjdi : ℚ) + mjdf - TAI2TT * SEC2DAY

/-- `XTime::setmyleaps (double *leapval, long mjdi, double mjdf)`: returns the
pair `(*leapval, return value ≠ 0)`. -/
def setmyleaps (mjdi : ℤ) (mjdf : ℚ) : ℚ × Bool :=
  let x : ℚ := taiMJD mjdi mjdf
  let j : ℤ := ratTrunc x
  let i : ℕ := leapIdx j (NUMLEAPSECS - 1)
  if x - Cs i * SEC2DAY < (Lm i : ℚ) ∧ i ≠ 0 then
    let i' := i - 1
    (Cs i', decide ((Lm (i' + 1) : ℚ) - x ≤ SEC2DAY))
  else
    (Cs i, false)

/-- `XTime::getMET`. -/
def getMET (s : XTimeState) : ℚ :=
  (((s.MJDint : ℚ) - (s.MJDrefint : ℚ)) + (s.MJDfr - s.MJDreffr) + s.timeZero) * DAY2SEC

/-- `XTime::getTT`. -/
def getTT (s : XTimeState) : ℚ := getMET s

/-- `XTime::getTAI`. -/
def getTAI (s : XTimeState) : ℚ := getMET s

/-- `XTime::getUTC`. -/
def getUTC (s : XTimeState) : ℚ :=
  (((s.MJDint : ℚ) - (s.MJDrefint : ℚ)) + (s.MJDfr - s.MJDreffr) + s.timeZero) * DAY2SEC
    - s.myLeaps + s.refLeaps

/-- `XTime::TTmjd (void)`. -/
def TTmjd (s : XTimeState) : ℚ := (s.MJDint : ℚ) + s.MJDfr + s.timeZero

/-- `XTime::TAImjd (void)`. -/
def TAImjd (s : XTimeState) : ℚ := TTmjd s - TAI2TT * SEC2DAY

/-- `XTime::UTmjd (long*, double*)`: UTC MJD as integer and fractional part,
with the single carry/borrow adjustment performed by the source. -/
def UTmjdPair (s : XTimeState) : ℤ × ℚ :=
  let k := s.MJDint
  let x := s.MJDfr + s.timeZero - (TAI2TT + s.myLeaps) * SEC2DAY
  if x < 0 then (k - 1, x + 1)
  else if 1 ≤ x then (k + 1, x - 1)
  else (k, x)

/-- `XTime::get (TimeSys ts, TimeFormat tf)` for the numeric formats
(`SECS`, `JD`, `MJD`), with the source's case fallthrough made explicit. -/
def get (s : XTimeState) (ts : TimeSys) (tf : TimeFormat) : ℚ :=
  match tf with
  | .SECS =>
    match ts with
    | .UTC => getUTC s
    | .TT => getTT s
    | .TAI => getTAI s
    | .MET => getMET s
  | .JD =>
    let tt := s.timeZero + MJD0
    match ts with
    | .UTC => tt - s.myLeaps * SEC2DAY - TAI2TT * SEC2DAY + (s.MJDint : ℚ) + s.MJDfr
    | .TAI => tt - TAI2TT * SEC2DAY + (s.MJDint : ℚ) + s.MJDfr
    | _ => tt + (s.MJDint : ℚ) + s.MJDfr
  | .MJD =>
    let tt := s.timeZero
    match ts with
    | .UTC => tt - s.myLeaps * SEC2DAY - TAI2TT * SEC2DAY + (s.MJDint : ℚ) + s.MJDfr
    | .TAI => tt - TAI2TT * SEC2DAY + (s.MJDint : ℚ) + s.MJDfr
    | _ => tt + (s.MJDint : ℚ) + s.MJDfr
  | _ => s.timeZero

/-- The final block of `XTime::set (long, double, ...)`: add the accumulated
correction `total`, split into integer and fractional MJD with a borrow
adjustment, and (for non-UTC systems) recompute `myLeaps`/`leapflag` via
`setmyleaps`.  `lf`/`ml` are the leap flag and leap count set by the UTC
branches (ignored, as in the source, when `ts ≠ UTC`). -/
def finishSet (s : XTimeState) (ts : TimeSys) (k : ℤ) (x : ℚ) (total : ℚ)
    (lf : Bool) (ml : ℚ) : XTimeState :=
  let x' := x + total * SEC2DAY
  let j := ratTrunc x'
  let mi := k + j
  let mf := x' - (j : ℚ)
  let mi' := if mf < 0 then mi - 1 else mi
  let mf' := if mf < 0 then mf + 1 else mf
  { s with MJDint := mi', MJDfr := mf',
           myLeaps := if ts = .UTC then ml else (setmyleaps mi' (mf' + s.timeZero)).1,
           leapflag := if ts = .UTC then lf else (setmyleaps mi' (mf' + s.timeZero)).2 }

/-- The `JD`/`MJD` arm of the `tf` switch in `XTime::set (long, double, ...)`
(the switch on `ts` with its fallthrough — UTC adds leap seconds and the TAI
offset, TAI adds only the TAI offset — made explicit). -/
def mjdCase (s : XTimeState) (k : ℤ) (x : ℚ) (ts : TimeSys) : XTimeState :=
  match ts with
  | .UTC =>
    let i := leapIdx k (NUMLEAPSECS - 1)
    if i < NUMLEAPSECS - 1 ∧ k + 1 = Lm (i + 1) ∧
        ((Lm (i + 1) : ℚ) - (k : ℚ) + x + s.timeZero < SEC2DAY) ∧ i ≠ 0 then
      finishSet s .UTC k x (Cs (i - 1) + TAI2TT) true (Cs (i - 1))
    else
      finishSet s .UTC k x (Cs i + TAI2TT) false (Cs i)
  | .TAI => finishSet s .TAI k x TAI2TT false s.myLeaps
  | .TT => finishSet s .TT k x 0 false s.myLeaps
  | .MET => finishSet s .MET k x 0 false s.myLeaps

/-- The `SECS` arm of the `tf` switch: seconds are relative to the instance's
reference epoch, with the leap corrections applied only for UTC. -/
def secsCase (s : XTimeState) (tti : ℤ) (ttf : ℚ) (ts : TimeSys) : XTimeState :=
  let k0 := ratTrunc ((tti : ℚ) * SEC2DAY)
  let x := (tti : ℚ) * SEC2DAY - (k0 : ℚ) + ttf * SEC2DAY + s.MJDreffr
  let k := k0 + s.MJDrefint
  match ts with
  | .UTC =>
    let j := ratTrunc ((k : ℚ) + x + s.timeZero)
    let i := leapIdx j (NUMLEAPSECS - 1)
    if ((k : ℚ) + x + s.timeZero - (Lm i : ℚ) < SEC2DAY) ∧ i ≠ 0 then
      finishSet s .UTC k x (-s.refLeaps + Cs (i - 1)) true (Cs (i - 1))
    else
      finishSet s .UTC k x (-s.refLeaps + Cs i) false (Cs i)
  | .TAI => finishSet s .TAI k x 0 false s.myLeaps
  | .TT => finishSet s .TT k x 0 false s.myLeaps
  | .MET => finishSet s .MET k x 0 false s.myLeaps

/-- The format/system conversion of `XTime::set (long, double, TimeSys,
TimeFormat, long, double)` after the `MJDREF` update.  `JD` first subtracts
`(long) MJD0` and 0.5 and then proceeds as `MJD` (the source's fallthrough).
For `DATE`/`CALDATE`/`FITS` the source hits the `default:` case and returns
with the time fields unchanged. -/
def setNumBody (s : XTimeState) (tti : ℤ) (ttf : ℚ) (ts : TimeSys)
    (tf : TimeFormat) : XTimeState :=
  match tf with
  | .DATE | .CALDATE | .FITS => s
  | .JD => mjdCase s (tti - 2400000) (ttf - 1 / 2) ts
  | .MJD => mjdCase s tti ttf ts
  | .SECS => secsCase s tti ttf ts

/-- The member-initializer state shared by the `XTime` constructors: the
fields in the initializer lists get their defaults, while `MJDint`, `MJDfr`
and `myLeaps` — absent from the numeric and date-string constructors'
initializer lists — hold indeterminate values, modelled by the parameters. -/
def ctorState (ji : ℤ) (jf jm : ℚ) : XTimeState :=
  ⟨ji, jf, 0, MJDREFint, MJDREFfr, false, jm, REFLEAPS⟩

/-- The `mjdi > 1` block at the top of `XTime::set (long, double, ...)`:
update the reference epoch, converting it from UTC via a fresh `XTime`
object (`XTime mt (mjdi, mjdf, ts)` followed by `mt.mjd`) or from TAI by
adding the fixed offset with a borrow adjustment. -/
def refUpdate (s : XTimeState) (ts : TimeSys) (mjdi : ℤ) (mjdf : ℚ) :
    XTimeState :=
  if 1 < mjdi then
    let rp : ℤ × ℚ :=
      match ts with
      | .UTC =>
        let mt := setNumBody (ctorState 0 0 REFLEAPS) mjdi mjdf .UTC .MJD
        (mt.MJDint, mt.MJDfr)
      | .TAI =>
        let rf := mjdf + TAI2TT * SEC2DAY
        if rf < 0 then (mjdi - 1, rf + 1) else (mjdi, rf)
      | _ => (mjdi, mjdf)
    { s with MJDrefint := rp.1, MJDreffr := rp.2,
             refLeaps := (setmyleaps rp.1 rp.2).1 }
  else s

/-- `XTime::set (long tti, double ttf, TimeSys ts, TimeFormat tf, long mjdi,
double mjdf)`: clear `leapflag`, run the reference-epoch update, then the
format/system conversion. -/
def setNum (s : XTimeState) (tti : ℤ) (ttf : ℚ) (ts : TimeSys)
    (tf : TimeFormat) (mjdi : ℤ) (mjdf : ℚ) : XTimeState :=
  setNumBody (refUpdate { s with leapflag := false } ts mjdi mjdf) tti ttf ts tf

/-- `XTime::set (double tt, ...)`: split the double into integer and
fractional parts with a `(long)` cast and delegate. -/
def setDouble (s : XTimeState) (tt : ℚ) (ts : TimeSys) (tf : TimeFormat)
    (mjdi : ℤ) (mjdf : ℚ) : XTimeState :=
  let k := ratTrunc tt
  setNum s k (tt - (k : ℚ)) ts tf mjdi mjdf

/-! ### String parsing (`sscanf` directives used by the date-string `set`
and by the `axTime3` front end)

The numeric parsers are split into a `ℚ`-free raw phase (so concrete parses
are decidable) and a value phase. -/

/-- Greedy digit run, accumulating the decimal value (`strtol` body). -/
def parseNatAux : List Char → ℕ → ℕ × List Char
  | [], acc => (acc, [])
  | c :: cs, acc =>
    if c.isDigit then parseNatAux cs (acc * 10 + (c.toNat - 48)) else (acc, c :: cs)

/-- `%ld`-style digit-run parse; fails (matching failure) if no digit. -/
def parseNatQ : List Char → Option (ℕ × List Char)
  | [] => none
  | c :: cs => if c.isDigit then some (parseNatAux (c :: cs) 0) else none

/-- Leading-whitespace skip performed by numeric `sscanf` directives. -/
def skipSpaces (cs : List Char) : List Char := cs.dropWhile (fun c => c = ' ')

/-- `%ld`: optional sign, then a digit run. -/
def parseIntQ (cs : List Char) : Option (ℤ × List Char) :=
  let cs := skipSpaces cs
  match cs with
  | '-' :: rest => (parseNatQ rest).map (fun p => (-(p.1 : ℤ), p.2))
  | '+' :: rest => (parseNatQ rest).map (fun p => ((p.1 : ℤ), p.2))
  | _ => (parseNatQ cs).map (fun p => ((p.1 : ℤ), p.2))

/-- Raw `%lg` parse (plain decimal forms, as exercised by the library's
inputs): sign, integer digit run, optional fraction digit run.  Returns the
digits so that the raw parse stays `ℚ`-free. -/
def parseRawQ (cs : List Char) : Option (Bool × ℕ × List ℕ × List Char) :=
  let cs := skipSpaces cs
  let core : List Char → Option (ℕ × List ℕ × List Char) := fun cs =>
    match parseNatQ cs with
    | none => none
    | some (n, rest) =>
      match rest with
      | '.' :: rest2 =>
        let ds := (rest2.takeWhile (fun c => c.isDigit)).map (fun c => c.toNat - 48)
        some (n, ds, rest2.dropWhile (fun c => c.isDigit))
      | _ => some (n, [], rest)
  match cs with
  | '-' :: rest => (core rest).map (fun p => (true, p))
  | '+' :: rest => (core rest).map (fun p => (false, p))
  | _ => (core cs).map (fun p => (false, p))

/-- Value of a fraction digit list: `[d1, d2, ...] ↦ 0.d1d2...`. -/
def fracVal : List ℕ → ℚ
  | [] => 0
  | d :: ds => ((d : ℚ) + fracVal ds) / 10

/-- Assembled value of a raw `%lg` parse. -/
def rawQVal (p : Bool × ℕ × List ℕ × List Char) : ℚ :=
  let v : ℚ := (p.2.1 : ℚ) + fracVal p.2.2.1
  if p.1 then -v else v

/-- `atof`: parse a double, 0.0 when nothing parses. -/
def atofQ (s : String) : ℚ := ((parseRawQ s.toList).map rawQVal).getD 0

/-- Literal character directive of `sscanf`. -/
def expectChar (c : Char) : List Char → Option (List Char)
  | [] => none
  | c2 :: rest => if c2 = c then some rest else none

/-- Raw phase of `sscanf (date, "%ld:%ld:%ld:%ld:%lg", ...)` from
`XTime::set (const char*, ...)`, `DATE` branch; `none` models a match count
different from 5 (the early `return`). -/
def parse5R (s : String) : Option (ℤ × ℤ × ℤ × ℤ × (Bool × ℕ × List ℕ × List Char)) := do
  let (year, r) ← parseIntQ s.toList
  let r ← expectChar ':' r
  let (day, r) ← parseIntQ r
  let r ← expectChar ':' r
  let (hour, r) ← parseIntQ r
  let r ← expectChar ':' r
  let (minute, r) ← parseIntQ r
  let r ← expectChar ':' r
  let sec ← parseRawQ r
  pure (year, day, hour, minute, sec)

/-- The day-count arithmetic of `XTime::set (const char*, ...)`:
`day += (year-1972)*365 - 1 ; day += (year-1969)/4 ; day += MJD1972 ;`
(C integer division truncates toward zero, hence `Int.tdiv`). -/
def dateMJDday (year day : ℤ) : ℤ :=
  day + (year - 1972) * 365 - 1 + Int.tdiv (year - 1969) 4 + MJD1972

/-- `XTime::set (const char* date, TimeSys ts, TimeFormat tf, ...)` for
`tf = DATE` (the only string format the claims exercise): parse the five
fields, run the day-count arithmetic, and delegate to the numeric `set` with
format `MJD`.  `none` models the early `return` on a failed parse, which
leaves the object's time fields untouched. -/
def setDateDATE (s : XTimeState) (date : String) (ts : TimeSys)
    (mjdi : ℤ) (mjdf : ℚ) : Option XTimeState :=
  match parse5R date with
  | none => none
  | some (year, day, hour, minute, sec) =>
    let day' := dateMJDday year day
    let sec' := (rawQVal sec + (hour : ℚ) * 3600 + (minute : ℚ) * 60) * SEC2DAY
    some (setNum s day' sec' ts .MJD mjdi mjdf)

/-! ### `XTime::getDate` (ordinal date fields) -/

/-- `XTime::mjd (long*, double*, TimeSys)`: integer/fraction MJD out-params.
For `MET` the source leaves the out-params unassigned (no claim exercises
it); we return the TT pair there. -/
def mjdPair (s : XTimeState) (ts : TimeSys) : ℤ × ℚ :=
  match ts with
  | .TT => (s.MJDint, s.MJDfr)
  | .TAI => (s.MJDint, s.MJDfr - TAI2TT * SEC2DAY)
  | .UTC => UTmjdPair s
  | .MET => (s.MJDint, s.MJDfr)

/-- The year/day-of-year loop at the end of `XTime::getDate`
(`while (day > 365) {...}` with the `%4` leap-year cycle; `i = 0` marks a
leap year, 1972 being one).  `fuel` bounds the iteration count (one per
year); the callers supply a bound far beyond any representable date. -/
def yearLoop : ℕ → ℤ → ℤ → ℕ → ℤ × ℤ
  | 0, year, day, _ => (year, day)
  | fuel + 1, year, day, i =>
    if 365 < day then
      if i = 0 then
        if day = 366 then (year, day)
        else yearLoop fuel (year + 1) (day - 366) ((i + 1) % 4)
      else yearLoop fuel (year + 1) (day - 365) ((i + 1) % 4)
    else (year, day)

/-- `XTime::getDate (TimeSys ts, TimeFormat tf, int dec)`, reduced to the
ordinal date fields `(year, day, hour, minute, seconds)` it computes before
`sprintf` formatting (`CALDATE`/`FITS` only re-render these same fields via
`monDay`).  The seconds field is the exact value after the `dsec`
add/subtract; rendering rounds it to `dec` digits (`dispRound`). -/
def getDateFields (s : XTimeState) (ts : TimeSys) (dec : ℕ) :
    ℤ × ℤ × ℤ × ℤ × ℚ :=
  let p := mjdPair s ts
  let k := p.1
  let x := if ts = .UTC ∧ s.leapflag then p.2 - SEC2DAY else p.2
  let j := ⌊x⌋
  let k := k + j
  let x := x - (j : ℚ)
  let dsec : ℚ := 1 / 2 * (1 / 10 ^ dec)
  let day := k - MJD1972
  let sec := x * DAY2SEC + dsec
  let hms : ℤ × ℤ × ℚ :=
    if ts = .UTC ∧ s.leapflag then
      let sec := sec + 1
      let hour := Int.tdiv (ratTrunc sec) 3600
      let hour := if 23 < hour then hour - 1 else hour
      let sec := sec - (hour : ℚ) * 3600
      let minute := Int.tdiv (ratTrunc sec) 60
      let minute := if 59 < minute then minute - 1 else minute
      (hour, minute, sec - (minute : ℚ) * 60)
    else
      let hour := Int.tdiv (ratTrunc sec) 3600
      let sec := sec - (hour : ℚ) * 3600
      let minute := Int.tdiv (ratTrunc sec) 60
      (hour, minute, sec - (minute : ℚ) * 60)
  let hour := hms.1
  let minute := hms.2.1
  let sec := hms.2.2
  let hour' := if 23 < hour then hour - 24 else hour
  let day := if 23 < hour then day + 1 else day
  let sec := sec - dsec
  let sec := if sec < 0 then 0 else sec
  let day := day + 1
  let yd := yearLoop 20000 1972 day 0
  (yd.1, yd.2, hour', minute, sec)

/-- `printf "%.*f"` rounding of the seconds field to `dec` digits (round to
nearest; no claim input lies on a tie, so the tie-breaking direction is
immaterial). -/
def dispRound (dec : ℕ) (q : ℚ) : ℚ := (⌊q * 10 ^ dec + 1 / 2⌋ : ℚ) / 10 ^ dec

/-! ### The `axTime3` front end (`_convert_time` / `convertTime`) -/

/-- `readsys`: interpret the time-system code (first letters, case
insensitive); `none` covers both the quit codes and unrecognized codes, for
which `axTime3` reports an error. -/
def readsysM (s : String) : Option TimeSys :=
  let cs := s.toList
  let c0 := (cs.getD 0 ' ').toLower
  let c1 := (cs.getD 1 ' ').toLower
  if c0 = 'm' then some .MET
  else if c0 = 't' then (if c1 = 'a' then some .TAI else some .TT)
  else if c0 = 'a' then some .TAI
  else if c0 = 'u' then some .UTC
  else none

/-- `readform`: interpret the time-format code; returns the format, the hex
and numeric-day flags, and the decimal-digit count taken from a trailing
digit run on `d`/`c`/`f` codes. -/
def readformM (s : String) : Option (TimeFormat × Bool × Bool × ℕ) :=
  let cs := s.toList
  let c0 := (cs.getD 0 ' ').toLower
  let base : Option (TimeFormat × Bool × Bool) :=
    if c0 = 's' then some (.SECS, false, false)
    else if c0 = 'j' then some (.JD, false, false)
    else if c0 = 'm' then some (.MJD, false, false)
    else if c0 = 'd' then some (.DATE, false, false)
    else if c0 = 'c' then some (.CALDATE, false, false)
    else if c0 = 'f' then some (.FITS, false, false)
    else if c0 = 'h' then some (.SECS, true, false)
    else if c0 = 'n' then some (.SECS, false, true)
    else none
  base.map (fun p =>
    match p.1 with
    | .DATE | .CALDATE | .FITS =>
      match cs.drop 1 with
      | c1 :: rest =>
        if c1.isDigit then (p.1, p.2.1, p.2.2, (parseNatAux (c1 :: rest) 0).1)
        else (p.1, p.2.1, p.2.2, 0)
      | [] => (p.1, p.2.1, p.2.2, 0)
    | _ => (p.1, p.2.1, p.2.2, 0))

/-- `sscanf (argv[1], "%x", &jt)` (with the `strtoul` base-16 `0x` prefix). -/
def parseHexAux : List Char → ℕ → ℕ
  | [], acc => acc
  | c :: cs, acc =>
    if c.isDigit then parseHexAux cs (acc * 16 + (c.toNat - 48))
    else if 'a' ≤ c ∧ c ≤ 'f' then parseHexAux cs (acc * 16 + (c.toNat - 87))
    else if 'A' ≤ c ∧ c ≤ 'F' then parseHexAux cs (acc * 16 + (c.toNat - 55))
    else acc
  termination_by cs _ => cs.length

/-- Hex seconds value of the input string. -/
def parseHex (s : String) : ℕ :=
  match skipSpaces s.toList with
  | '0' :: 'x' :: r => parseHexAux r 0
  | '0' :: 'X' :: r => parseHexAux r 0
  | cs => parseHexAux cs 0

/-- `sscanf (argv[1], "%d:%d:%d:%lg", ...)` for numeric-day input followed by
`t += 86400*day + 3600*h + 60*m`; unparsed fields keep their zero
initializations (`t` itself is uninitialized in the source when the final
field fails to parse; modelled as 0 — no claim exercises this path). -/
def nmdayVal (s : String) : ℚ :=
  let step : Option (ℤ × ℤ × ℤ × ℚ) := do
    let (d, r) ← parseIntQ s.toList
    let r ← expectChar ':' r
    let (h, r) ← parseIntQ r
    let r ← expectChar ':' r
    let (m, r) ← parseIntQ r
    let r ← expectChar ':' r
    let t ← parseRawQ r
    pure (d, h, m, rawQVal t)
  match step with
  | some (d, h, m, t) => t + 86400 * (d : ℚ) + 3600 * (h : ℚ) + 60 * (m : ℚ)
  | none => 0

/-- Structured content of the `time_out` string produced by `axTime3`. -/
inductive ConvOut
  | numOut (t : ℚ)
  | hexOut (jt : ℤ)
  | nmdayOut (d h m : ℤ) (t : ℚ)
  | dateOut (tf : TimeFormat) (dec : ℕ) (fields : ℤ × ℤ × ℤ × ℤ × ℚ)
  | unmodeledStr (tf : TimeFormat)
deriving DecidableEq

/-- The string-constructor dispatch of `getinput`: `XTime (str, tSys, tForm)`.
Only the `DATE` branch of the date-string `set` is embedded (`none` marks the
`CALDATE`/`FITS` string constructors, which no claim exercises).  A failed
`DATE` parse leaves the constructor-initialized state in place. -/
def stringCtor (cs : XTimeState) (str : String) (ts : TimeSys)
    (tf : TimeFormat) : Option XTimeState :=
  match tf with
  | .DATE => some ((setDateDATE cs str ts 0 0).getD cs)
  | _ => none

/-- `getinput` for the five-argument `axTime3` call (`argc = 6`): classify
the input string, read the input system and format codes, and construct the
`XTime` object.  Outer `none` = `getinput` returns `NULL` (the front end then
produces the fixed error message); inner `none` = a string-constructor path
not embedded here.  `ji`/`jf`/`jm` model the constructor's indeterminate
fields. -/
def buildInput (ji : ℤ) (jf jm : ℚ)
    (time_in ts_in tf_in ts_out tf_out : String) : Option (Option XTimeState) :=
  let cs := ctorState ji jf jm
  if ts_in = "at" ∨ ts_in = "AT" then
    -- CALDATE three-word input: istrt = 4, so system/format come from
    -- argv[4]/argv[5] (= ts_out/tf_out)
    match readsysM ts_out, readformM tf_out with
    | some _, some _ => some none
    | _, _ => none
  else
    match readsysM ts_in, readformM tf_in with
    | some tSys, some (tForm, hexfmt, nmday, _d) =>
      let a1 := time_in.toList
      if a1.getD 4 ' ' = '-' ∧ a1.getD 7 ' ' = '-' then
        some (stringCtor cs time_in tSys tForm)
      else if a1.contains ':' then
        let day := ((parseIntQ a1).map Prod.fst).getD 0
        if day < 1900 ∧ 366 < day then
          some (some (setDouble cs (nmdayVal time_in) tSys tForm 0 0))
        else some (stringCtor cs time_in tSys tForm)
      else
        let t : ℚ :=
          if hexfmt then (parseHex time_in : ℚ)
          else if nmday then nmdayVal time_in
          else atofQ time_in
        some (some (setDouble cs t tSys tForm 0 0))
    | _, _ => none

/-- The output phase of `axTime3`: render per the requested system/format. -/
def convertOutCore (s : XTimeState) (tSys : TimeSys) (tForm : TimeFormat)
    (hexfmt nmday : Bool) (dec : ℕ) : ConvOut :=
  match tForm with
  | .SECS | .JD | .MJD =>
    let t := get s tSys tForm
    if hexfmt then .hexOut (ratTrunc t)
    else if nmday then
      let d := Int.tdiv (ratTrunc t) 86400
      let t1 := t - (d : ℚ) * 86400
      let h := Int.tdiv (ratTrunc t1) 3600
      let t2 := t1 - (h : ℚ) * 3600
      let m := Int.tdiv (ratTrunc t2) 60
      .nmdayOut d h m (t2 - (m : ℚ) * 60)
    else .numOut t
  | _ => .dateOut tForm dec (getDateFields s tSys dec)

/-- `axTime3 (time_in, ts_in, tf_in, ts_out, tf_out, time_out)`: `none`
corresponds to the fixed error strings written into `time_out` (errors 1/2/3),
`some` to a successful conversion. -/
def convertPipeline (ji : ℤ) (jf jm : ℚ)
    (time_in ts_in tf_in ts_out tf_out : String) : Option ConvOut :=
  match buildInput ji jf jm time_in ts_in tf_in ts_out tf_out with
  | none => none
  | some st? =>
    match readsysM ts_out, readformM tf_out with
    | some tSys, some (tForm, hexfmt, nmday, dec) =>
      match st? with
      | some s => some (convertOutCore s tSys tForm hexfmt nmday dec)
      | none => some (.unmodeledStr tForm)
    | _, _ => none

/-! ### `XTimeRange` -/

/-- `XTimeRange`: two `XTime` members and the `empty` indicator. -/
structure XTimeRange where
  start : XTimeState
  stop : XTimeState
  empty : Bool

/-- `XTimeRange::isInRange (double t)`: -1 before, 1 after (or empty),
0 inside. -/
def isInRange (r : XTimeRange) (t : ℚ) : ℤ :=
  if t < getMET r.start then -1
  else if getMET r.stop < t then 1
  else if r.empty then 1
  else 0

/-- `XTimeRange::totalTime`. -/
def totalTime (r : XTimeRange) : ℚ :=
  if r.empty then 0 else getMET r.stop - getMET r.start

/-! ### `XTime::setleaps` (leap-second table refresh)

The file I/O is abstracted: the refresh body receives the already-parsed
`fscanf` results (year, boundary MJD, cumulative leap seconds per accepted
line) and the `ferror` outcome.  The static arrays are modelled as functions
so in-place overwrites during the read loop are visible. -/

/-- The process-wide leap-second table state
(`NUMLEAPSECS`, `LEAPSMJD`, `LEAPSECS`). -/
structure LeapTable where
  num : ℕ
  lmjd : ℕ → ℤ
  lsec : ℕ → ℚ

/-- The compiled-in fallback table. -/
def builtinTable : LeapTable := ⟨NUMLEAPSECS, Lm, Cs⟩

/-- The `while (fscanf(...) == 3)` read loop of `XTime::setleaps`: each
post-1970 line is written into the arrays only when `all` (forced refresh,
`dt < 0`) or `nums >= NUMLEAPSECS`; `nums` counts only written lines. -/
def readLoop (all : Bool) (N0 : ℕ) :
    List (ℤ × ℤ × ℚ) → ℕ × (ℕ → ℤ) × (ℕ → ℚ) → ℕ × (ℕ → ℤ) × (ℕ → ℚ)
  | [], st => st
  | (yr, md, ls) :: rest, (nums, fm, fs) =>
    if 1970 < yr then
      if all ∨ N0 ≤ nums then
        readLoop all N0 rest
          (nums + 1, Function.update fm nums md, Function.update fs nums ls)
      else readLoop all N0 rest (nums, fm, fs)
    else readLoop all N0 rest (nums, fm, fs)

/-- The refresh body of `XTime::setleaps` when the file is found: run the
read loop, then commit the new count only when `nums >= NUMLEAPSECS` and no
read error occurred (silent failure otherwise — but note the arrays
themselves were already written by the loop). -/
def setleapsRead (all : Bool) (t : LeapTable) (entries : List (ℤ × ℤ × ℚ))
    (ferr : Bool) : LeapTable :=
  let r := readLoop all t.num entries (0, t.lmjd, t.lsec)
  if t.num ≤ r.1 ∧ ¬ferr then ⟨r.1, r.2.1, r.2.2⟩ else ⟨t.num, r.2.1, r.2.2⟩

end ChandraTime

namespace ChandraTime

/-- `(long)` truncation of an exact integer. -/
theorem ratTrunc_intCast (n : ℤ) : ratTrunc (n : ℚ) = n := by
  unfold ratTrunc
  split
  · rw [show (-(n : ℚ)) = ((-n : ℤ) : ℚ) by push_cast; ring, Int.floor_intCast]; ring
  · rw [Int.floor_intCast]

/-- The value minus its toward-zero truncation lies in `(-1, 1)`. -/
theorem ratTrunc_bounds (q : ℚ) :
    -1 < q - (ratTrunc q : ℚ) ∧ q - (ratTrunc q : ℚ) < 1 := by
  unfold ratTrunc
  split
  · have h1 := Int.floor_le (-q)
    have h2 := Int.lt_floor_add_one (-q)
    constructor <;> push_cast <;> linarith
  · have h1 := Int.floor_le q
    have h2 := Int.lt_floor_add_one q
    constructor <;> linarith

/-- For a nonnegative value toward-zero truncation is the floor. -/
theorem ratTrunc_eq_floor (q : ℚ) (h : 0 ≤ q) : ratTrunc q = ⌊q⌋ := by
  unfold ratTrunc
  rw [if_neg (not_lt.2 h)]

/-- The borrow-adjusted fractional part lies in `[0, 1)`. -/
theorem adjfrac_bounds (q : ℚ) :
    0 ≤ (if q - (ratTrunc q : ℚ) < 0 then q - (ratTrunc q : ℚ) + 1
         else q - (ratTrunc q : ℚ)) ∧
    (if q - (ratTrunc q : ℚ) < 0 then q - (ratTrunc q : ℚ) + 1
     else q - (ratTrunc q : ℚ)) < 1 := by
  have hb := ratTrunc_bounds q
  split
  next h => exact ⟨by linarith [hb.1], by linarith⟩
  next h => exact ⟨le_of_not_lt h, hb.2⟩

/-- `finishSet` always leaves `MJDfr` normalized to `[0, 1)`. -/
theorem finishSet_frac (s : XTimeState) (ts : TimeSys) (k : ℤ) (x total : ℚ)
    (lf : Bool) (ml : ℚ) :
    0 ≤ (finishSet s ts k x total lf ml).MJDfr ∧
    (finishSet s ts k x total lf ml).MJDfr < 1 :=
  adjfrac_bounds (x + total * SEC2DAY)

/-- `finishSet` never touches the reference-epoch fields. -/
theorem finishSet_refs (s : XTimeState) (ts : TimeSys) (k : ℤ) (x total : ℚ)
    (lf : Bool) (ml : ℚ) :
    (finishSet s ts k x total lf ml).MJDrefint = s.MJDrefint ∧
    (finishSet s ts k x total lf ml).MJDreffr = s.MJDreffr ∧
    (finishSet s ts k x total lf ml).refLeaps = s.refLeaps :=
  ⟨rfl, rfl, rfl⟩

/-- After any numeric-format `set` body, `MJDfr` is normalized to `[0, 1)`. -/
theorem setNumBody_frac (s : XTimeState) (tti : ℤ) (ttf : ℚ) (ts : TimeSys)
    (tf : TimeFormat) (h : tf = .SECS ∨ tf = .JD ∨ tf = .MJD) :
    0 ≤ (setNumBody s tti ttf ts tf).MJDfr ∧
    (setNumBody s tti ttf ts tf).MJDfr < 1 := by
  rcases h with rfl | rfl | rfl <;> cases ts <;>
    simp only [setNumBody, mjdCase, secsCase] <;>
    first
      | (split <;> exact finishSet_frac _ _ _ _ _ _ _)
      | exact finishSet_frac _ _ _ _ _ _ _

/-- The `set` body never touches the reference-epoch fields. -/
theorem setNumBody_refs (s : XTimeState) (tti : ℤ) (ttf : ℚ) (ts : TimeSys)
    (tf : TimeFormat) :
    (setNumBody s tti ttf ts tf).MJDrefint = s.MJDrefint ∧
    (setNumBody s tti ttf ts tf).MJDreffr = s.MJDreffr ∧
    (setNumBody s tti ttf ts tf).refLeaps = s.refLeaps := by
  cases tf <;> cases ts <;>
    simp only [setNumBody, mjdCase, secsCase] <;>
    first
      | (split <;> exact finishSet_refs _ _ _ _ _ _ _)
      | exact finishSet_refs _ _ _ _ _ _ _
      | exact ⟨rfl, rfl, rfl⟩
      | exact ⟨trivial, trivial, trivial⟩

/-- C8: after every `set` call with recognized numeric system and format
codes — and after every successful date-string `set`, which delegates with
format `MJD` — the fractional MJD part satisfies `0 ≤ MJDfr < 1`, the
overflow or borrow having been carried into the integer part. -/
theorem set_mjd_frac_normalized (s : XTimeState) (tti : ℤ) (ttf : ℚ)
    (ts : TimeSys) (tf : TimeFormat) (mjdi : ℤ) (mjdf : ℚ) (d : String)
    (s' : XTimeState) (h : tf = .SECS ∨ tf = .JD ∨ tf = .MJD) :
    (0 ≤ (setNum s tti ttf ts tf mjdi mjdf).MJDfr ∧
      (setNum s tti ttf ts tf mjdi mjdf).MJDfr < 1) ∧
    (setDateDATE s d ts mjdi mjdf = some s' → 0 ≤ s'.MJDfr ∧ s'.MJDfr < 1) := by
  constructor
  · exact setNumBody_frac _ tti ttf ts tf h
  · intro hd
    unfold setDateDATE at hd
    rcases hp : parse5R d with _ | ⟨y, dd, hh, mm, sc⟩ <;> rw [hp] at hd
    · exact absurd hd (by simp)
    · simp only [Option.some.injEq] at hd
      rw [← hd]
      exact setNumBody_frac _ _ _ ts .MJD (Or.inr (Or.inr rfl))

/-- C8 witness: a concrete MET-seconds `set` leaves `MJDfr` in `[0, 1)`. -/
theorem set_mjd_frac_normalized_witness :
    (0 ≤ (setNum (ctorState 0 0 31) 100 (1/4) .MET .SECS 0 0).MJDfr ∧
      (setNum (ctorState 0 0 31) 100 (1/4) .MET .SECS 0 0).MJDfr < 1) ∧
    (setDateDATE (ctorState 0 0 31) "x" .MET 0 0 = some (ctorState 0 0 31) →
      0 ≤ (ctorState 0 0 31).MJDfr ∧ (ctorState 0 0 31).MJDfr < 1) :=
  set_mjd_frac_normalized (ctorState 0 0 31) 100 (1/4) .MET .SECS 0 0 "x"
    (ctorState 0 0 31) (Or.inl rfl)

/-- C9: in every `set` call, the reference-epoch fields (`MJDrefint`,
`MJDreffr`, `refLeaps`) keep their previous values whenever the supplied
reference MJD integer part is at most 1 (zero, one, or negative), whatever
fractional part is supplied. -/
theorem set_ref_guard (s : XTimeState) (tti : ℤ) (ttf : ℚ) (ts : TimeSys)
    (tf : TimeFormat) (mjdi : ℤ) (mjdf : ℚ) (h : mjdi ≤ 1) :
    (setNum s tti ttf ts tf mjdi mjdf).MJDrefint = s.MJDrefint ∧
    (setNum s tti ttf ts tf mjdi mjdf).MJDreffr = s.MJDreffr ∧
    (setNum s tti ttf ts tf mjdi mjdf).refLeaps = s.refLeaps := by
  have h1 : refUpdate { s with leapflag := false } ts mjdi mjdf
      = { s with leapflag := false } := by
    unfold refUpdate; rw [if_neg (not_lt.2 h)]
  have hb := setNumBody_refs { s with leapflag := false } tti ttf ts tf
  unfold setNum
  rw [h1]
  exact hb

/-- C9 witness: a concrete `set` with reference integer part 1 keeps all
three reference fields. -/
theorem set_ref_guard_witness :
    (setNum (ctorState 2 (1/3) 10) 5 0 .UTC .MJD 1 (1/2)).MJDrefint
      = (ctorState 2 (1/3) 10).MJDrefint ∧
    (setNum (ctorState 2 (1/3) 10) 5 0 .UTC .MJD 1 (1/2)).MJDreffr
      = (ctorState 2 (1/3) 10).MJDreffr ∧
    (setNum (ctorState 2 (1/3) 10) 5 0 .UTC .MJD 1 (1/2)).refLeaps
      = (ctorState 2 (1/3) 10).refLeaps :=
  set_ref_guard (ctorState 2 (1/3) 10) 5 0 .UTC .MJD 1 (1/2) le_rfl

/-- C10: for every time range whose emptiness flag is set, `totalTime`
returns exactly 0 and `isInRange` never returns 0: instants before the start
report -1 and all others report 1. -/
theorem empty_range_excludes_all (r : XTimeRange) (t : ℚ) (h : r.empty = true) :
    totalTime r = 0 ∧ isInRange r t ≠ 0 ∧
    (t < getMET r.start → isInRange r t = -1) ∧
    (¬t < getMET r.start → isInRange r t = 1) := by
  unfold totalTime isInRange
  rw [h]
  split_ifs with h1 h2 <;> simp_all

/-- C10 witness: a concrete empty range (equal endpoints) reports 0 total
time and classifies a concrete inside-looking instant as 1, not 0. -/
theorem empty_range_excludes_all_witness :
    totalTime ⟨ctorState 50814 0 31, ctorState 50814 0 31, true⟩ = 0 ∧
    isInRange ⟨ctorState 50814 0 31, ctorState 50814 0 31, true⟩ 0 ≠ 0 ∧
    ((0 : ℚ) < getMET (ctorState 50814 0 31) →
      isInRange ⟨ctorState 50814 0 31, ctorState 50814 0 31, true⟩ 0 = -1) ∧
    (¬(0 : ℚ) < getMET (ctorState 50814 0 31) →
      isInRange ⟨ctorState 50814 0 31, ctorState 50814 0 31, true⟩ 0 = 1) :=
  empty_range_excludes_all ⟨ctorState 50814 0 31, ctorState 50814 0 31, true⟩ 0 rfl

/-- The search loop never moves above its start index. -/
theorem leapIdx_le (j : ℤ) (i : ℕ) : leapIdx j i ≤ i := by
  induction i with
  | zero => exact le_rfl
  | succ n ih =>
    unfold leapIdx
    split
    · exact le_trans ih (Nat.le_succ n)
    · exact le_rfl

/-- If the query is at or past the first entry, the found entry is `≤` it. -/
theorem leapIdx_lower (j : ℤ) (i : ℕ) (h : Lm 0 ≤ j) : Lm (leapIdx j i) ≤ j := by
  induction i with
  | zero => exact h
  | succ n ih =>
    unfold leapIdx
    split
    next => exact ih
    next hlt => exact not_lt.1 hlt

/-- If the loop stopped strictly below its start index, the next entry is
past the query: the found index is the last one `≤` the query. -/
theorem leapIdx_last (j : ℤ) (i : ℕ) (h : leapIdx j i < i) :
    j < Lm (leapIdx j i + 1) := by
  induction i with
  | zero => exact absurd h (by omega)
  | succ n ih =>
    by_cases hc : j < Lm (n + 1)
    · unfold leapIdx at h ⊢
      rw [if_pos hc] at h ⊢
      rcases Nat.lt_or_ge (leapIdx j n) n with hlt | hge
      · exact ih hlt
      · rw [le_antisymm (leapIdx_le j n) hge]
        exact hc
    · unfold leapIdx at h
      rw [if_neg hc] at h
      exact absurd h (by omega)

/-- Every entry of the fallback table is at least the first one. -/
theorem lm_lower_bound : ∀ i : ℕ, i < 26 → 41317 ≤ Lm i := by decide

/-- Queries below the first entry drive the loop all the way to index 0. -/
theorem leapIdx_of_lt_first (j : ℤ) (h : j < 41317) :
    ∀ i, i ≤ 25 → leapIdx j i = 0 := by
  intro i
  induction i with
  | zero => intro _; rfl
  | succ n ih =>
    intro hle
    have hlm := lm_lower_bound (n + 1) (by omega)
    unfold leapIdx
    rw [if_pos (by omega)]
    exact ih (by omega)

/-- Truncation of a value below a positive integer stays below it. -/
theorem ratTrunc_lt_int (q : ℚ) (n : ℤ) (hn : 0 < n) (h : q < (n : ℚ)) :
    ratTrunc q < n := by
  unfold ratTrunc
  split
  next hq =>
    have h0 : (0 : ℤ) ≤ ⌊-q⌋ := Int.floor_nonneg.2 (by linarith)
    omega
  next hq => exact Int.floor_lt.2 h

/-- Zeta-expanded form of `setmyleaps` with the start index computed. -/
theorem setmyleaps_eq (mjdi : ℤ) (mjdf : ℚ) :
    setmyleaps mjdi mjdf =
      (if taiMJD mjdi mjdf - Cs (leapIdx (ratTrunc (taiMJD mjdi mjdf)) 25) * SEC2DAY
            < (Lm (leapIdx (ratTrunc (taiMJD mjdi mjdf)) 25) : ℚ) ∧
          leapIdx (ratTrunc (taiMJD mjdi mjdf)) 25 ≠ 0 then
        (Cs (leapIdx (ratTrunc (taiMJD mjdi mjdf)) 25 - 1),
          decide ((Lm (leapIdx (ratTrunc (taiMJD mjdi mjdf)) 25 - 1 + 1) : ℚ)
            - taiMJD mjdi mjdf ≤ SEC2DAY))
      else (Cs (leapIdx (ratTrunc (taiMJD mjdi mjdf)) 25), false)) := rfl

/-- C4 (amended): the leap-second lookup `setmyleaps`, characterized.  With
`x` the TAI MJD of the query and `j` its truncation: below the first table
entry it returns the first entry's count and reports not-in-leap-second.
Otherwise, with `n` the last table index whose epoch is `≤ j`: when `n ≥ 1`
and `x` lies within `LEAPSECS[n]` seconds after epoch `LEAPSMJD[n]`, it
returns the previous entry's count with the in-leap-second flag set —
throughout that whole `LEAPSECS[n]`-second window, not merely its final
second; everywhere else it returns entry `n`'s count with the flag clear. -/
theorem setmyleaps_lookup (mjdi : ℤ) (mjdf : ℚ) :
    (taiMJD mjdi mjdf < ((41317 : ℤ) : ℚ) → setmyleaps mjdi mjdf = (Cs 0, false)) ∧
    (((41317 : ℤ) : ℚ) ≤ taiMJD mjdi mjdf →
      ∃ n : ℕ, n ≤ 25 ∧ Lm n ≤ ratTrunc (taiMJD mjdi mjdf) ∧
        (n = 25 ∨ ratTrunc (taiMJD mjdi mjdf) < Lm (n + 1)) ∧
        (1 ≤ n ∧ taiMJD mjdi mjdf < (Lm n : ℚ) + Cs n * SEC2DAY →
          setmyleaps mjdi mjdf = (Cs (n - 1), true)) ∧
        ((n = 0 ∨ (Lm n : ℚ) + Cs n * SEC2DAY ≤ taiMJD mjdi mjdf) →
          setmyleaps mjdi mjdf = (Cs n, false))) := by
  constructor
  · intro h
    have hj : ratTrunc (taiMJD mjdi mjdf) < 41317 :=
      ratTrunc_lt_int _ 41317 (by norm_num) (by exact_mod_cast h)
    have hidx : leapIdx (ratTrunc (taiMJD mjdi mjdf)) 25 = 0 :=
      leapIdx_of_lt_first _ hj 25 le_rfl
    rw [setmyleaps_eq, hidx, if_neg (by simp)]
  · intro h
    have hx0 : (0 : ℚ) ≤ taiMJD mjdi mjdf := le_trans (by norm_num) h
    have hjf : ratTrunc (taiMJD mjdi mjdf) = ⌊taiMJD mjdi mjdf⌋ :=
      ratTrunc_eq_floor _ hx0
    have hjx : (ratTrunc (taiMJD mjdi mjdf) : ℚ) ≤ taiMJD mjdi mjdf := by
      rw [hjf]; exact Int.floor_le _
    have hLj : (41317 : ℤ) ≤ ratTrunc (taiMJD mjdi mjdf) := by
      rw [hjf]; exact Int.le_floor.2 h
    refine ⟨leapIdx (ratTrunc (taiMJD mjdi mjdf)) 25, leapIdx_le _ 25,
      leapIdx_lower _ 25 hLj, ?_, ?_, ?_⟩
    · rcases Nat.lt_or_ge (leapIdx (ratTrunc (taiMJD mjdi mjdf)) 25) 25 with hlt | hge
      · exact Or.inr (leapIdx_last _ 25 hlt)
      · exact Or.inl (le_antisymm (leapIdx_le _ 25) hge)
    · rintro ⟨h1, h2⟩
      have hcond : taiMJD mjdi mjdf
          - Cs (leapIdx (ratTrunc (taiMJD mjdi mjdf)) 25) * SEC2DAY
          < (Lm (leapIdx (ratTrunc (taiMJD mjdi mjdf)) 25) : ℚ) := by linarith
      rw [setmyleaps_eq, if_pos ⟨hcond, by omega⟩]
      have hidx1 : leapIdx (ratTrunc (taiMJD mjdi mjdf)) 25 - 1 + 1
          = leapIdx (ratTrunc (taiMJD mjdi mjdf)) 25 := by omega
      have hLx : (Lm (leapIdx (ratTrunc (taiMJD mjdi mjdf)) 25) : ℚ)
          ≤ taiMJD mjdi mjdf := le_trans (by exact_mod_cast leapIdx_lower _ 25 hLj) hjx
      rw [hidx1, decide_eq_true (by unfold SEC2DAY; linarith)]
    · intro h0
      rw [setmyleaps_eq, if_neg ?_]
      rintro ⟨hc1, hc2⟩
      rcases h0 with h0 | h0
      · exact hc2 h0
      · linarith

/-- C4 counterexample: at the query whose TAI MJD is exactly the epoch of
table entry 22 (MJD 51179, count 32), the code returns the previous entry's
count 31 — not the count of the last entry `≤` the query — and reports
in-leap-second although the query is about 2557 days, not one second, before
the next entry's epoch (53736). -/
theorem setmyleaps_lookup_counterexample :
    setmyleaps 51179 (TAI2TT * SEC2DAY) = (31, true) ∧
    taiMJD 51179 (TAI2TT * SEC2DAY) = ((51179 : ℤ) : ℚ) ∧
    Lm 22 = 51179 ∧ Cs 22 = 32 ∧
    SEC2DAY < (Lm 23 : ℚ) - taiMJD 51179 (TAI2TT * SEC2DAY) := by
  have hx : taiMJD 51179 (TAI2TT * SEC2DAY) = ((51179 : ℤ) : ℚ) := by
    unfold taiMJD; push_cast; ring
  have hj : ratTrunc (taiMJD 51179 (TAI2TT * SEC2DAY)) = 51179 := by
    rw [hx, ratTrunc_intCast]
  have hidx : leapIdx (51179 : ℤ) 25 = 22 := by decide
  refine ⟨?_, hx, rfl, rfl, ?_⟩
  · rw [setmyleaps_eq, hj, hidx, if_pos ?_]
    · have h1 : (22 : ℕ) - 1 + 1 = 22 := rfl
      rw [h1]
      have hd : ((Lm 22 : ℤ) : ℚ) - taiMJD 51179 (TAI2TT * SEC2DAY) ≤ SEC2DAY := by
        rw [hx]
        show ((51179 : ℤ) : ℚ) - ((51179 : ℤ) : ℚ) ≤ SEC2DAY
        unfold SEC2DAY; norm_num
      rw [decide_eq_true hd]
      rfl
    · refine ⟨?_, by omega⟩
      rw [hx]
      show ((51179 : ℤ) : ℚ) - (32 : ℚ) * SEC2DAY < ((51179 : ℤ) : ℚ)
      unfold SEC2DAY
      norm_num
  · rw [hx]
    show SEC2DAY < ((53736 : ℤ) : ℚ) - ((51179 : ℤ) : ℚ)
    unfold SEC2DAY
    norm_num

/-- C4 witness: the amended characterization applied at the concrete TT
instant MJD 51382 + 359/360 (the C1 scenario's epoch), which lies past the
first table entry. -/
theorem setmyleaps_lookup_witness :
    ∃ n : ℕ, n ≤ 25 ∧ Lm n ≤ ratTrunc (taiMJD 51382 (359 / 360)) ∧
      (n = 25 ∨ ratTrunc (taiMJD 51382 (359 / 360)) < Lm (n + 1)) ∧
      (1 ≤ n ∧ taiMJD 51382 (359 / 360) < (Lm n : ℚ) + Cs n * SEC2DAY →
        setmyleaps 51382 (359 / 360) = (Cs (n - 1), true)) ∧
      ((n = 0 ∨ (Lm n : ℚ) + Cs n * SEC2DAY ≤ taiMJD 51382 (359 / 360)) →
        setmyleaps 51382 (359 / 360) = (Cs n, false)) :=
  (setmyleaps_lookup 51382 (359 / 360)).2 (by
    unfold taiMJD TAI2TT SEC2DAY
    push_cast
    norm_num)

/-- C7 counterexample: parsing the ordinal date string `1999:366:00:00:00`
(day 366 of a year with `y % 4 ≠ 0`) is not rejected: the date-string `set`
succeeds, and produces exactly the same epoch as `2000:001:00:00:00` — the
out-of-range day is silently normalized into the next year instead of being
treated as invalid. -/
theorem date366_not_rejected_counterexample :
    (setDateDATE (ctorState 0 0 31) "1999:366:00:00:00" .UTC 0 0).isSome = true ∧
    setDateDATE (ctorState 0 0 31) "1999:366:00:00:00" .UTC 0 0
      = setDateDATE (ctorState 0 0 31) "2000:001:00:00:00" .UTC 0 0 := by
  have hp1 : parse5R "1999:366:00:00:00"
      = some (1999, 366, 0, 0, (false, 0, [], [])) := rfl
  have hp2 : parse5R "2000:001:00:00:00"
      = some (2000, 1, 0, 0, (false, 0, [], [])) := rfl
  have hd1 : dateMJDday 1999 366 = 51544 := by decide
  have hd2 : dateMJDday 2000 1 = 51544 := by decide
  unfold setDateDATE
  rw [hp1, hp2]
  exact ⟨rfl, by simp only [hd1, hd2]⟩

/-- C7 (amended): the date-string parser never rejects a day-of-year of 366
(or any other out-of-range value) — the day-count arithmetic, whose leap-year
rule is exactly `year % 4 == 0` via the `(year-1969)/4` term with no
century/400-year exception, absorbs it instead.  For `y % 4 == 0` the string
`y:366` denotes the distinct final day of year `y` (one day before day 1 of
year `y+1`); for `y % 4 ≠ 0` it denotes the very same day as `(y+1):001`.
Any string whose five fields parse yields an epoch. -/
theorem date366_leap_rule (y : ℤ) (h : 1972 ≤ y) :
    (y % 4 = 0 → dateMJDday y 366 + 1 = dateMJDday (y + 1) 1) ∧
    (y % 4 ≠ 0 → dateMJDday y 366 = dateMJDday (y + 1) 1) ∧
    (∀ (s : XTimeState) (d : String) (ts : TimeSys) (mi : ℤ) (mf : ℚ)
      (fields : ℤ × ℤ × ℤ × ℤ × (Bool × ℕ × List ℕ × List Char)),
      parse5R d = some fields → (setDateDATE s d ts mi mf).isSome = true) := by
  refine ⟨?_, ?_, ?_⟩
  · intro h4
    unfold dateMJDday MJD1972
    rw [Int.tdiv_eq_ediv (by omega) (by omega),
      Int.tdiv_eq_ediv (by omega) (by omega)]
    omega
  · intro h4
    unfold dateMJDday MJD1972
    rw [Int.tdiv_eq_ediv (by omega) (by omega),
      Int.tdiv_eq_ediv (by omega) (by omega)]
    omega
  · intro s d ts mi mf fields hp
    rcases fields with ⟨fy, fd, fh, fm, fs⟩
    unfold setDateDATE
    rw [hp]
    rfl

/-- C7 witness: the amended statement applied at the leap year 2000:
`2000:366` is one day before `2001:001`, and a concretely parsed string
yields an epoch. -/
theorem date366_leap_rule_witness :
    ((2000 : ℤ) % 4 = 0 → dateMJDday 2000 366 + 1 = dateMJDday (2000 + 1) 1) ∧
    ((2000 : ℤ) % 4 ≠ 0 → dateMJDday 2000 366 = dateMJDday (2000 + 1) 1) ∧
    (∀ (s : XTimeState) (d : String) (ts : TimeSys) (mi : ℤ) (mf : ℚ)
      (fields : ℤ × ℤ × ℤ × ℤ × (Bool × ℕ × List ℕ × List Char)),
      parse5R d = some fields → (setDateDATE s d ts mi mf).isSome = true) :=
  date366_leap_rule 2000 (by omega)

/-- In additive mode (`dt > 0`, `all = false`) with a nonempty current table
the read loop writes nothing: `nums` can never reach `NUMLEAPSECS` because it
only increments on a write. -/
theorem readLoop_skip (N0 : ℕ) (h : 0 < N0) (entries : List (ℤ × ℤ × ℚ))
    (fm : ℕ → ℤ) (fs : ℕ → ℚ) :
    readLoop false N0 entries (0, fm, fs) = (0, fm, fs) := by
  induction entries with
  | nil => rfl
  | cons e rest ih =>
    rcases e with ⟨yr, md, ls⟩
    unfold readLoop
    split
    · rw [if_neg ?_]
      · exact ih
      · rintro (hb | hn)
        · exact Bool.false_ne_true hb
        · omega
    · exact ih

/-- C5 counterexample: a forced full refresh (`dt < 0`) whose source yields
fewer entries than currently known (one entry against the 26 known) and no
read error leaves the entry count unchanged but has already overwritten the
first stored (MJD, leap-seconds) pair — the table is not exactly what it was
before the refresh. -/
theorem setleaps_fewer_counterexample :
    (readLoop true builtinTable.num [(1972, 99999, 99)]
      (0, builtinTable.lmjd, builtinTable.lsec)).1 = 1 ∧
    1 < builtinTable.num ∧
    (setleapsRead true builtinTable [(1972, 99999, 99)] false).num
      = builtinTable.num ∧
    (setleapsRead true builtinTable [(1972, 99999, 99)] false).lmjd 0 = 99999 ∧
    builtinTable.lmjd 0 = 41317 := by
  refine ⟨rfl, by decide, rfl, ?_, rfl⟩
  show Function.update builtinTable.lmjd 0 99999 0 = 99999
  simp

/-- C5 (amended): across every refresh the leap-second entry count never
decreases; when the source yields fewer accepted entries than currently
known, or a read error occurs, the entry count (and in additive mode with a
nonempty table, the whole table, arrays included) is left unchanged and no
error is raised — but in forced-full-refresh mode the stored pairs may
already have been overwritten by the source's entries (see the
counterexample). -/
theorem setleaps_refresh (all ferr : Bool) (t : LeapTable)
    (entries : List (ℤ × ℤ × ℚ)) :
    (t.num ≤ (setleapsRead all t entries ferr).num) ∧
    ((readLoop all t.num entries (0, t.lmjd, t.lsec)).1 < t.num ∨ ferr = true →
      (setleapsRead all t entries ferr).num = t.num) ∧
    (all = false → 0 < t.num → setleapsRead all t entries ferr = t) := by
  refine ⟨?_, ?_, ?_⟩
  · simp only [setleapsRead]
    split_ifs with h
    · exact h.1
    · exact le_rfl
  · intro hcase
    simp only [setleapsRead]
    split_ifs with h
    · rcases hcase with hlt | herr
      · omega
      · exact absurd herr h.2
    · rfl
  · rintro rfl hnum
    simp only [setleapsRead]
    rw [readLoop_skip t.num hnum entries t.lmjd t.lsec]
    rw [if_neg (by rintro ⟨hle, _⟩; omega)]

/-- C5 witness: an additive-mode refresh over the built-in table with a
single-entry source leaves the table exactly unchanged. -/
theorem setleaps_refresh_witness :
    setleapsRead false builtinTable [(1972, 99999, 99)] false = builtinTable :=
  (setleaps_refresh false false builtinTable [(1972, 99999, 99)]).2.2 rfl
    (by decide)

/-- Concrete evaluation of `setmyleaps` when the leap-window branch is not
taken. -/
theorem setmyleaps_eval_nowin (mjdi : ℤ) (mjdf : ℚ) (j : ℤ) (n : ℕ)
    (hx : 0 ≤ taiMJD mjdi mjdf) (hj : ⌊taiMJD mjdi mjdf⌋ = j)
    (hn : leapIdx j 25 = n)
    (hcond : ¬(taiMJD mjdi mjdf - Cs n * SEC2DAY < (Lm n : ℚ)) ∨ n = 0) :
    setmyleaps mjdi mjdf = (Cs n, false) := by
  rw [setmyleaps_eq, ratTrunc_eq_floor _ hx, hj, hn, if_neg ?_]
  rintro ⟨hc1, hc2⟩
  rcases hcond with h | h
  · exact h hc1
  · exact hc2 h

/-- The C1 scenario's `set`: 49161360.0 TT seconds since the default
reference lands on TT MJD 51382 + 359/360 with 32 leap seconds cached,
whatever indeterminate values the constructor left behind. -/
theorem set_c1 (ji : ℤ) (jf jm : ℚ) :
    setDouble (ctorState ji jf jm) 49161360 .TT .SECS 0 0
      = ⟨51382, 359 / 360, 0, 50814, 0, false, 32, 31⟩ := by
  have e0 : (49161360 : ℚ) = ((49161360 : ℤ) : ℚ) := by norm_num
  have h1 : ratTrunc (49161360 : ℚ) = 49161360 := by rw [e0, ratTrunc_intCast]
  unfold setDouble
  rw [h1]
  unfold setNum
  rw [show refUpdate { ctorState ji jf jm with leapflag := false } .TT 0 0
      = { ctorState ji jf jm with leapflag := false } from by
    unfold refUpdate; rw [if_neg (by omega)]]
  have hX : ((49161360 : ℤ) : ℚ) * SEC2DAY - ((568 : ℤ) : ℚ)
      + ((49161360 : ℚ) - ((49161360 : ℤ) : ℚ)) * SEC2DAY + MJDREFfr
      + 0 * SEC2DAY = 359 / 360 := by
    unfold SEC2DAY MJDREFfr
    norm_num
  show secsCase { ctorState ji jf jm with leapflag := false } 49161360
      ((49161360 : ℚ) - ((49161360 : ℤ) : ℚ)) .TT = _
  unfold secsCase
  have h2 : ratTrunc (((49161360 : ℤ) : ℚ) * SEC2DAY) = 568 := by
    rw [ratTrunc_eq_floor _ (by unfold SEC2DAY; norm_num)]
    unfold SEC2DAY
    norm_num
  rw [h2]
  show finishSet _ .TT (568 + (ctorState ji jf jm).MJDrefint) _ 0 false _ = _
  unfold finishSet
  dsimp only [ctorState]
  rw [hX]
  have hj0 : ratTrunc (359 / 360 : ℚ) = 0 := by
    rw [ratTrunc_eq_floor _ (by norm_num)]
    norm_num
  rw [hj0]
  have hc : ¬((359 / 360 : ℚ) - ((0 : ℤ) : ℚ) < 0) := by norm_num
  simp only [if_neg hc]
  have hts : ¬(TimeSys.TT = TimeSys.UTC) := by decide
  simp only [if_neg hts]
  have hsl : setmyleaps (568 + MJDREFint + 0) (359 / 360 - ((0 : ℤ) : ℚ) + 0)
      = (32, false) := by
    have h32 : Cs 22 = 32 := rfl
    have hr := setmyleaps_eval_nowin (568 + MJDREFint + 0)
      (359 / 360 - ((0 : ℤ) : ℚ) + 0) 51382 22 ?_ ?_ (by decide) ?_
    · rw [hr, h32]
    · unfold taiMJD MJDREFint TAI2TT SEC2DAY
      push_cast
      norm_num
    · unfold taiMJD MJDREFint TAI2TT SEC2DAY
      push_cast
      norm_num
    · left
      rw [h32, show (Lm 22 : ℤ) = 51179 from rfl]
      unfold taiMJD MJDREFint TAI2TT SEC2DAY
      push_cast
      norm_num
  rw [hsl]
  simp only [XTimeState.mk.injEq]
  norm_num [MJDREFint, MJDREFfr, REFLEAPS]

/-- The C1 scenario's `getDate`: the UTC ordinal date fields of the epoch
TT MJD 51382 + 359/360 are 1999:204:23:54 with seconds exactly 55.816. -/
theorem getdate_c1 :
    getDateFields ⟨51382, 359 / 360, 0, 50814, 0, false, 32, 31⟩ .UTC 0
      = (1999, 204, 23, 54, 55816 / 1000) := by
  have hpair : UTmjdPair ⟨51382, 359 / 360, 0, 50814, 0, false, 32, 31⟩
      = (51382, 86095816 / 86400000) := by
    unfold UTmjdPair TAI2TT SEC2DAY
    dsimp only
    rw [if_neg (by norm_num), if_neg (by norm_num)]
    norm_num
  unfold getDateFields
  rw [show mjdPair ⟨51382, 359 / 360, 0, 50814, 0, false, 32, 31⟩ .UTC
    = UTmjdPair ⟨51382, 359 / 360, 0, 50814, 0, false, 32, 31⟩ from rfl, hpair]
  dsimp only
  have hlf : ¬(True ∧ (false : Bool) = true) := by simp
  simp only [if_neg hlf]
  have hfloor : ⌊(86095816 / 86400000 : ℚ)⌋ = 0 := by norm_num
  rw [hfloor]
  have hsec : ((86095816 / 86400000 : ℚ) - ((0 : ℤ) : ℚ)) * DAY2SEC
      + 1 / 2 * (1 / 10 ^ 0) = 86096316 / 1000 := by
    unfold DAY2SEC
    push_cast
    norm_num
  rw [hsec]
  have hrt1 : ratTrunc (86096316 / 1000 : ℚ) = 86096 := by
    rw [ratTrunc_eq_floor _ (by norm_num)]
    norm_num
  rw [hrt1]
  have htd1 : (86096 : ℤ).tdiv 3600 = 23 := by decide
  rw [htd1]
  have hrt2 : ratTrunc ((86096316 / 1000 : ℚ) - ((23 : ℤ) : ℚ) * 3600) = 3296 := by
    rw [ratTrunc_eq_floor _ (by push_cast; norm_num)]
    push_cast
    norm_num
  rw [hrt2]
  have htd2 : (3296 : ℤ).tdiv 60 = 54 := by decide
  rw [htd2]
  simp only [if_neg (show ¬(23 : ℤ) < 23 by decide)]
  rw [show (51382 + 0 - MJD1972 + 1 : ℤ) = 10066 from by unfold MJD1972; norm_num]
  rw [show yearLoop 20000 1972 10066 0 = (1999, 204) from by decide]
  rw [if_neg (show ¬((86096316 / 1000 : ℚ) - ((23 : ℤ) : ℚ) * 3600
    - ((54 : ℤ) : ℚ) * 60 - 1 / 2 * (1 / 10 ^ 0) < 0) from by push_cast; norm_num)]
  simp only [Prod.mk.injEq]
  refine ⟨trivial, trivial, trivial, trivial, ?_⟩
  push_cast
  norm_num

/-- `atof` on the C1 input string. -/
theorem atof_c1 : atofQ "49161360.0" = 49161360 := by
  have h : parseRawQ "49161360.0".toList = some (false, 49161360, [0], []) := rfl
  unfold atofQ
  rw [h]
  show rawQVal (false, 49161360, [0], []) = 49161360
  norm_num [rawQVal, fracVal]

/-- The front end classifies `"49161360.0" tt s utc d` as plain-number input
in system TT, format `SECS`, output UTC ordinal date with 0 decimals. -/
theorem conv_c1_shape (ji : ℤ) (jf jm : ℚ) :
    convertPipeline ji jf jm "49161360.0" "tt" "s" "utc" "d"
      = some (.dateOut .DATE 0 (getDateFields
          (setDouble (ctorState ji jf jm) (atofQ "49161360.0") .TT .SECS 0 0)
          .UTC 0)) := rfl

/-- C1: `convertTime("49161360.0", "tt", "s", "utc", "d")` — seconds since
1998.0 TT, rendered as a UTC ordinal date with the default 0 decimal digits —
computes exactly the date fields 1999:204:23:54:55.816 (whatever values the
constructor's uninitialized fields held).  At the default 0 digits the
seconds field displays as the rounded 56, and at 3 digits as 55.816. -/
theorem convertTime_tt_secs_utc_date (ji : ℤ) (jf jm : ℚ) :
    convertPipeline ji jf jm "49161360.0" "tt" "s" "utc" "d"
      = some (.dateOut .DATE 0 (1999, 204, 23, 54, 55816 / 1000)) ∧
    dispRound 0 (55816 / 1000) = 56 ∧
    dispRound 3 (55816 / 1000) = 55816 / 1000 := by
  refine ⟨?_, ?_, ?_⟩
  · rw [conv_c1_shape ji jf jm, atof_c1, set_c1 ji jf jm, getdate_c1]
  · unfold dispRound
    norm_num
  · unfold dispRound
    norm_num

/-- C6: the malformed input `convertTime("not-a-time", "u", "d", "u", "s")`
does not match the `DATE` grammar (`sscanf` match count 0, not 5) — yet the
front end reports no error at all: lacking a colon, the string is classified
as a plain number, `atof` yields 0.0, the `DATE`-format numeric `set` hits
its `default:` case leaving the epoch fields as constructed (uninitialized
in the source), and a numeric seconds string computed from those fields is
returned instead of the fixed error message. -/
theorem malformed_input_reports_no_error (ji : ℤ) (jf jm : ℚ) :
    parse5R "not-a-time" = none ∧
    convertPipeline ji jf jm "not-a-time" "u" "d" "u" "s"
      = some (.numOut (get { ctorState ji jf jm with leapflag := false }
          .UTC .SECS)) :=
  ⟨rfl, rfl⟩

/-- C2: for every epoch state, `get(UTC, SECS)` equals `get(MET, SECS)` minus
the cached leap-second count at this instant plus the cached leap-second count
at the reference epoch, exactly. -/
theorem utc_eq_met_sub_leaps (s : XTimeState) :
    get s .UTC .SECS = get s .MET .SECS - s.myLeaps + s.refLeaps := by
  simp [get, getUTC, getMET]

/-- C3: for every epoch state, `get(TAI, SECS)` equals `get(TT, SECS)` and both
equal the MET seconds view; and `TTmjd() - TAImjd()` is exactly 32.184 seconds
expressed in days, independent of the epoch. -/
theorem tai_eq_tt_and_fixed_offset (s : XTimeState) :
    get s .TAI .SECS = get s .TT .SECS ∧
    get s .TAI .SECS = get s .MET .SECS ∧
    TTmjd s - TAImjd s = TAI2TT * SEC2DAY := by
  refine ⟨rfl, rfl, ?_⟩
  simp [TAImjd]

end ChandraTime
